import Mathlib

/-!
Verification development for the claude-agent-skills script collection.

Each Python script is shallowly embedded as Lean definitions: the HTTP
layer, the filesystem and the subprocess layer are abstracted as explicit
environment parameters (response traces, outcome functions), while the
control flow and arithmetic of the scripts are translated faithfully from
the source.
-/

set_option autoImplicit false

universe u

/-! ## GitHub exporter: pagination (fetch.py, `GitHubUserDataFetcher._fetch_paginated_data`)

The server side of one paginated endpoint is modelled as a trace of
responses: entry k-1 of the list is what the server answers for page k
(pages are requested starting at 1 and incrementing by 1, which the list
indexing encodes). A response is either an error (request failure or body
decode failure) or a page: the decoded JSON list plus whether the Link
header contains a next marker. A request beyond the end of the trace is an
empty page, which stops the loop just as an empty collection does.
-/

/-- One decoded page: the JSON collection and whether the Link header
carries a next marker (the `rel="next"` check at fetch.py line 121). -/
structure PageData (α : Type u) where
  items : List α
  hasNext : Bool
  deriving Repr, DecidableEq

/-- The server answer for one page request: a page, or an error raised by
the request or by decoding its body. -/
inductive PageResponse (α : Type u) where
  | ok (p : PageData α)
  | err (msg : String)
  deriving Repr, DecidableEq

/-- Embedding of the while-loop of `_fetch_paginated_data` (fetch.py lines
106-130): `acc` is the `all_data` accumulator; the loop breaks on an
exception (returning `acc` as accumulated so far, no retry), on an empty
collection, and when the Link header has no next marker, otherwise it
requests the next page. -/
def fetchPaginatedData {α : Type u} (acc : List α) : List (PageResponse α) → List α
  | [] => acc
  | .err _ :: _ => acc
  | .ok p :: rest =>
    if p.items.isEmpty then acc
    else if p.hasNext then fetchPaginatedData (acc ++ p.items) rest
    else acc ++ p.items

/-- Well-formed pagination of an item list: the trace a server delivers
when it spreads `items` over pages of `perPage` items each, setting the
next marker exactly while further items remain. This models the claim
hypothesis, not repository code. -/
def paginate {α : Type u} (perPage : Nat) : List α → List (PageResponse α)
  | [] => []
  | x :: xs =>
    if _h : perPage = 0 then []
    else
      .ok ⟨(x :: xs).take perPage, decide (perPage < (x :: xs).length)⟩ ::
        paginate perPage ((x :: xs).drop perPage)
termination_by l => l.length
decreasing_by
  simp only [List.length_drop, List.length_cons]
  omega

lemma fetchPaginatedData_paginate {α : Type u} (perPage : Nat) (hp : 0 < perPage) :
    ∀ (n : Nat) (items : List α), items.length ≤ n →
      ∀ acc : List α, fetchPaginatedData acc (paginate perPage items) = acc ++ items := by
  intro n
  induction n with
  | zero =>
    intro items hlen acc
    have : items = [] := List.length_eq_zero.mp (Nat.le_zero.mp hlen)
    subst this
    simp [paginate, fetchPaginatedData]
  | succ n ih =>
    intro items hlen acc
    match items with
    | [] => simp [paginate, fetchPaginatedData]
    | x :: xs =>
      rw [paginate, dif_neg (Nat.pos_iff_ne_zero.mp hp)]
      have htake : ((x :: xs).take perPage).isEmpty = false := by
        cases perPage with
        | zero => exact absurd hp (Nat.lt_irrefl 0)
        | succ m => simp
      by_cases hnext : perPage < (x :: xs).length
      · have hdrop : ((x :: xs).drop perPage).length ≤ n := by
          rw [List.length_drop]
          simp only [List.length_cons] at hlen ⊢
          omega
        have hih := ih _ hdrop (acc ++ (x :: xs).take perPage)
        simp [fetchPaginatedData, htake, hnext, hih, List.append_assoc, List.take_append_drop]
      · have htk : (x :: xs).take perPage = x :: xs :=
          List.take_of_length_le (Nat.le_of_not_lt hnext)
        simp only [List.length_cons] at hnext
        simp [fetchPaginatedData, htake, hnext, htk]

/-- C1: for a resource with N items spread over pages of a fixed positive
page size, the paginated fetch requests pages 1, 2, ... in order (the
response-trace indexing), stops on an empty page or a missing next marker,
and returns exactly the N items in the order the pages delivered them. -/
theorem C1_pagination_returns_all_items {α : Type u} (perPage : Nat) (items : List α)
    (hp : 0 < perPage) :
    fetchPaginatedData [] (paginate perPage items) = items := by
  simpa using fetchPaginatedData_paginate perPage hp items.length items le_rfl []

/-- Witness for C1 at page size 2 over five items. -/
theorem C1_pagination_witness :
    0 < 2 ∧ fetchPaginatedData [] (paginate 2 [10, 20, 30, 40, 50]) = [10, 20, 30, 40, 50] :=
  ⟨by decide, C1_pagination_returns_all_items 2 [10, 20, 30, 40, 50] (by decide)⟩

lemma fetchPaginatedData_error_aux {α : Type u} (e : String) (rest : List (PageResponse α)) :
    ∀ (good : List (PageData α)), (∀ p ∈ good, p.items ≠ [] ∧ p.hasNext = true) →
      ∀ acc : List α,
        fetchPaginatedData acc (good.map PageResponse.ok ++ PageResponse.err e :: rest)
          = acc ++ (good.map PageData.items).flatten := by
  intro good
  induction good with
  | nil => intro _ acc; simp [fetchPaginatedData]
  | cons p ps ih =>
    intro h acc
    obtain ⟨hne, hnx⟩ := h p (List.mem_cons_self p ps)
    have h1 : p.items.isEmpty = false := by rw [List.isEmpty_eq_false]; exact hne
    have hih := ih (fun q hq => h q (List.mem_cons_of_mem p hq)) (acc ++ p.items)
    simp [fetchPaginatedData, h1, hnx, hih, List.append_assoc]

/-- C2: when the request for page k (or decoding its body) raises an error
after k-1 full pages were delivered, the fetch stops paginating and
returns exactly the items accumulated from pages 1 through k-1, in order,
without retrying the failed page. -/
theorem C2_error_returns_accumulated {α : Type u} (good : List (PageData α)) (e : String)
    (rest : List (PageResponse α))
    (h : ∀ p ∈ good, p.items ≠ [] ∧ p.hasNext = true) :
    fetchPaginatedData [] (good.map PageResponse.ok ++ PageResponse.err e :: rest)
      = (good.map PageData.items).flatten := by
  simpa using fetchPaginatedData_error_aux e rest good h []

/-- Witness for C2: two full pages, then a failing page 3. -/
theorem C2_error_witness :
    (∀ p ∈ [PageData.mk [1, 2] true, PageData.mk [3, 4] true], p.items ≠ [] ∧ p.hasNext = true) ∧
      fetchPaginatedData []
        (([PageData.mk [1, 2] true, PageData.mk [3, 4] true].map PageResponse.ok)
          ++ PageResponse.err "boom" :: [PageResponse.ok (PageData.mk [5] false)])
        = [1, 2, 3, 4] :=
  ⟨by decide,
    C2_error_returns_accumulated [PageData.mk [1, 2] true, PageData.mk [3, 4] true] "boom"
      [PageResponse.ok (PageData.mk [5] false)] (by decide)⟩

/-! ## GitHub exporter: fetch_all orchestration (fetch.py, `GitHubUserDataFetcher.fetch_all`)

The orchestrator runs a fixed sequence of resource fetches. Six of the
resource methods have no internal exception handler, so an error raised
inside them propagates to the handler in fetch_all and aborts the
remaining fetches; the others wrap their body in a handler catching
Exception (which in Python does not catch KeyboardInterrupt). fetch_all
itself catches KeyboardInterrupt and Exception, and in a finally block
saves the metadata file and prints the summary.

The HTTP and filesystem layers are abstracted as an outcome function
assigning each resource step a result: success, an error (any Exception),
or a process-level interrupt arriving during that step.
-/

/-- The resource fetch steps of fetch_all, in source order. -/
inductive Resource where
  | profile | repositories | gists | starred | followers | following
  | organizations | events | subscriptions | contributionCalendar
  | pullRequests | issues | languageStats | repositoryStats
  deriving DecidableEq, Repr, Fintype

/-- Whether the fetch method of a resource wraps its body in an
exception handler of its own (try/except Exception inside the method). -/
def hasOwnHandler : Resource → Bool
  | .organizations | .events | .subscriptions | .contributionCalendar
  | .pullRequests | .issues | .languageStats | .repositoryStats => true
  | _ => false

/-- The only resource whose fetch issues a GraphQL request
(`_make_graphql_request` is called only from fetch_contribution_calendar). -/
def usesGraphQL : Resource → Bool
  | .contributionCalendar => true
  | _ => false

/-- The sequence of fetches fetch_all attempts: the contribution calendar
is in the sequence exactly when a token was supplied (fetch.py lines
607-610). -/
def fetchOrder (hasToken : Bool) : List Resource :=
  [.profile, .repositories, .gists, .starred, .followers, .following,
   .organizations, .events, .subscriptions]
  ++ (if hasToken then [.contributionCalendar] else [])
  ++ [.pullRequests, .issues, .languageStats, .repositoryStats]

/-- Result of executing one resource fetch step. -/
inductive StepResult where
  | ok
  | error
  | interrupt
  deriving DecidableEq, Repr

/-- How the try-block of fetch_all ends. -/
inductive BodyEnd where
  | completed
  | exn
  | interrupted
  deriving DecidableEq, Repr

/-- Observable actions of a fetch_all run. -/
inductive Ev where
  | fetch (r : Resource)
  | logError
  | logInterrupt
  | saveMetadata
  | printSummary
  deriving DecidableEq, Repr

/-- Execution of the try-block body of fetch_all over a step sequence:
a step that succeeds continues; an error in a step with its own handler is
swallowed there and the run continues; an error in any other step
propagates (ending the body with an exception); an interrupt always
propagates, since except Exception does not catch KeyboardInterrupt. -/
def runBody (outcome : Resource → StepResult) : List Resource → List Ev × BodyEnd
  | [] => ([], .completed)
  | r :: rest =>
    match outcome r with
    | .ok =>
      let p := runBody outcome rest
      (.fetch r :: p.1, p.2)
    | .error =>
      if hasOwnHandler r then
        let p := runBody outcome rest
        (.fetch r :: p.1, p.2)
      else ([.fetch r], .exn)
    | .interrupt => ([.fetch r], .interrupted)

/-- Embedding of fetch_all (fetch.py lines 581-629): run the body, handle
KeyboardInterrupt and Exception by logging, and in the finally block save
the metadata file and print the summary. -/
def fetchAllEvents (outcome : Resource → StepResult) (hasToken : Bool) : List Ev :=
  let p := runBody outcome (fetchOrder hasToken)
  p.1
    ++ (match p.2 with
        | .completed => []
        | .exn => [.logError]
        | .interrupted => [.logInterrupt])
    ++ [.saveMetadata, .printSummary]

/-- The resources whose fetch method actually ran (possibly raising). -/
def executedResources (outcome : Resource → StepResult) (hasToken : Bool) : List Resource :=
  (runBody outcome (fetchOrder hasToken)).1.filterMap fun e =>
    match e with
    | .fetch r => some r
    | _ => none

/-- C3: in fetch_all, when exactly one step raises an error, a failure in
organizations, events, subscriptions, pull requests, issues or the
contribution calendar is contained (every step of the run still
executes), while a failure in profile, repositories, gists, starred,
followers or following aborts the rest of the run (exactly the steps up to
and including the failed one execute). -/
theorem C3_failure_isolation (r : Resource) (hasToken : Bool) :
    (r ∈ ([.organizations, .events, .subscriptions, .pullRequests, .issues,
          .contributionCalendar] : List Resource) →
      executedResources (fun x => if x = r then .error else .ok) hasToken
        = fetchOrder hasToken)
    ∧ (r ∈ ([.profile, .repositories, .gists, .starred, .followers,
            .following] : List Resource) →
      executedResources (fun x => if x = r then .error else .ok) hasToken
        = (fetchOrder hasToken).takeWhile (fun x => x ≠ r) ++ [r]) := by
  revert r hasToken
  decide

/-- Witness for C3: a failing organizations fetch leaves the whole
sequence executed; a failing gists fetch truncates the run after gists. -/
theorem C3_failure_isolation_witness :
    executedResources (fun x => if x = Resource.organizations then .error else .ok) true
      = fetchOrder true
    ∧ executedResources (fun x => if x = Resource.gists then .error else .ok) true
      = (fetchOrder true).takeWhile (fun x => x ≠ Resource.gists) ++ [Resource.gists] :=
  ⟨(C3_failure_isolation Resource.organizations true).1 (by decide),
   (C3_failure_isolation Resource.gists true).2 (by decide)⟩

lemma executedResources_mem {outcome : Resource → StepResult} :
    ∀ (l : List Resource) (r : Resource),
      r ∈ (runBody outcome l).1.filterMap (fun e =>
        match e with
        | .fetch s => some s
        | _ => none) → r ∈ l := by
  intro l
  induction l with
  | nil => intro r h; simp [runBody] at h
  | cons a rest ih =>
    intro r h
    cases houtcome : outcome a with
    | ok =>
      simp only [runBody, houtcome, List.filterMap_cons] at h
      rcases List.mem_cons.mp h with h1 | h2
      · exact h1 ▸ List.mem_cons_self a rest
      · exact List.mem_cons_of_mem a (ih r h2)
    | error =>
      by_cases hh : hasOwnHandler a
      · simp only [runBody, houtcome, hh, if_true, List.filterMap_cons] at h
        rcases List.mem_cons.mp h with h1 | h2
        · exact h1 ▸ List.mem_cons_self a rest
        · exact List.mem_cons_of_mem a (ih r h2)
      · simp [runBody, houtcome, hh] at h
        exact h ▸ List.mem_cons_self a rest
    | interrupt =>
      simp [runBody, houtcome] at h
      exact h ▸ List.mem_cons_self a rest

lemma runBody_all_ok {outcome : Resource → StepResult}
    (hok : ∀ r, outcome r = .ok) :
    ∀ l : List Resource, runBody outcome l = (l.map Ev.fetch, .completed) := by
  intro l
  induction l with
  | nil => rfl
  | cons a rest ih => simp [runBody, hok a, ih]

/-- C8: with no token, the contribution-calendar fetch never executes and
no executed step issues a GraphQL request, whatever the step outcomes are;
with a token, the contribution-calendar fetch is part of the planned
sequence, and on a run whose steps all succeed it executes. -/
theorem C8_calendar_gated_on_token :
    (∀ outcome : Resource → StepResult,
      Resource.contributionCalendar ∉ executedResources outcome false
      ∧ ∀ r ∈ executedResources outcome false, usesGraphQL r = false)
    ∧ Resource.contributionCalendar ∈ fetchOrder true
    ∧ (∀ outcome : Resource → StepResult, (∀ r, outcome r = .ok) →
        Resource.contributionCalendar ∈ executedResources outcome true) := by
  refine ⟨fun outcome => ⟨fun hmem => ?_, fun r hr => ?_⟩, by decide, fun outcome hok => ?_⟩
  · have := @executedResources_mem outcome (fetchOrder false)
      Resource.contributionCalendar hmem
    revert this
    decide
  · have hmem := @executedResources_mem outcome (fetchOrder false) r hr
    clear hr
    revert hmem
    revert r
    decide
  · unfold executedResources
    rw [runBody_all_ok hok]
    revert hok
    intro _
    decide

/-- Witness for C8 instantiating the all-steps-succeed hypothesis. -/
theorem C8_calendar_witness :
    Resource.contributionCalendar ∈ executedResources (fun _ => .ok) true :=
  C8_calendar_gated_on_token.2.2 (fun _ => .ok) (fun _ => rfl)

lemma runBody_events_are_fetches {outcome : Resource → StepResult} :
    ∀ (l : List Resource) (e : Ev), e ∈ (runBody outcome l).1 → ∃ r, e = .fetch r := by
  intro l
  induction l with
  | nil => intro e h; simp [runBody] at h
  | cons a rest ih =>
    intro e h
    cases houtcome : outcome a with
    | ok =>
      simp only [runBody, houtcome, List.mem_cons] at h
      rcases h with h1 | h2
      · exact ⟨a, h1⟩
      · exact ih e h2
    | error =>
      by_cases hh : hasOwnHandler a
      · simp only [runBody, houtcome, hh, if_true, List.mem_cons] at h
        rcases h with h1 | h2
        · exact ⟨a, h1⟩
        · exact ih e h2
      · simp [runBody, houtcome, hh] at h
        exact ⟨a, h⟩
    | interrupt =>
      simp [runBody, houtcome] at h
      exact ⟨a, h⟩

/-- C9: on every run of fetch_all — completed, aborted by an error, or
interrupted — the event trace ends with exactly one metadata save followed
by exactly one summary print: both happen once, at the end of the run,
with the summary printed before exit. -/
theorem C9_metadata_saved_once_at_end (outcome : Resource → StepResult) (hasToken : Bool) :
    ∃ pre : List Ev,
      fetchAllEvents outcome hasToken = pre ++ [Ev.saveMetadata, Ev.printSummary]
      ∧ Ev.saveMetadata ∉ pre ∧ Ev.printSummary ∉ pre := by
  refine ⟨(runBody outcome (fetchOrder hasToken)).1
    ++ (match (runBody outcome (fetchOrder hasToken)).2 with
        | .completed => []
        | .exn => [Ev.logError]
        | .interrupted => [Ev.logInterrupt]), ?_, ?_, ?_⟩
  · simp [fetchAllEvents, List.append_assoc]
  · intro hmem
    rcases List.mem_append.mp hmem with h1 | h2
    · obtain ⟨r, hr⟩ := runBody_events_are_fetches (fetchOrder hasToken) _ h1
      exact Ev.noConfusion hr
    · revert h2
      cases (runBody outcome (fetchOrder hasToken)).2 <;> decide
  · intro hmem
    rcases List.mem_append.mp hmem with h1 | h2
    · obtain ⟨r, hr⟩ := runBody_events_are_fetches (fetchOrder hasToken) _ h1
      exact Ev.noConfusion hr
    · revert h2
      cases (runBody outcome (fetchOrder hasToken)).2 <;> decide

/-! ## Imgur uploader (upload.py)

The filesystem and the Imgur API are abstracted: `fileExists` tells
whether a path exists, `extOf` gives the lower-cased suffix of a path (the
`Path(image_path).suffix.lower()` call), and `net` gives the outcome of
the HTTP POST for a path. The per-image routine and the aggregator are
translated from `upload_image_to_imgur` and `upload_multiple_images`.
-/

/-- Outcome of the HTTP POST to the Imgur upload endpoint. -/
inductive NetOutcome where
  | ok (apiSuccess : Bool)
  | httpError (status : Nat)
  | timeout
  | requestError
  | unexpected
  deriving DecidableEq, Repr

/-- The result dictionary built by `upload_image_to_imgur`: original path,
success flag and error message (the imgur_data payload is not needed by
any claim and is omitted). -/
structure UploadResult where
  originalPath : String
  success : Bool
  errMsg : Option String
  deriving DecidableEq, Repr

/-- The allowed image extensions (upload.py line 65). -/
def validExtensions : List String :=
  [".jpg", ".jpeg", ".png", ".gif", ".bmp", ".webp", ".tiff"]

/-- Embedding of `upload_image_to_imgur` (upload.py lines 30-148): checks
existence, extension and authentication, then posts and classifies the
response; every branch keeps the original path in the result. -/
def uploadImageToImgur (fileExists : String → Bool) (extOf : String → String)
    (net : String → NetOutcome) (clientId accessToken : Option String)
    (imagePath : String) : UploadResult :=
  if !fileExists imagePath then
    ⟨imagePath, false, some "File not found"⟩
  else if !validExtensions.contains (extOf imagePath) then
    ⟨imagePath, false, some "Invalid image format"⟩
  else if accessToken.isNone && clientId.isNone then
    ⟨imagePath, false, some "No authentication provided"⟩
  else
    match net imagePath with
    | .ok true => ⟨imagePath, true, none⟩
    | .ok false => ⟨imagePath, false, some "Imgur API returned success=false"⟩
    | .httpError _ => ⟨imagePath, false, some "HTTP error"⟩
    | .timeout => ⟨imagePath, false, some "Request timeout"⟩
    | .requestError => ⟨imagePath, false, some "Network error"⟩
    | .unexpected => ⟨imagePath, false, some "Unexpected error"⟩

/-- The aggregate dictionary of `upload_multiple_images`. -/
structure BatchResults where
  total : Nat
  successful : Nat
  failed : Nat
  uploads : List UploadResult
  deriving DecidableEq, Repr

/-- One iteration of the loop in `upload_multiple_images` (upload.py lines
174-185): append the result and bump the matching counter. -/
def uploadStep (up : String → UploadResult) (acc : BatchResults) (p : String) : BatchResults :=
  let r := up p
  { acc with
    uploads := acc.uploads ++ [r]
    successful := if r.success then acc.successful + 1 else acc.successful
    failed := if r.success then acc.failed else acc.failed + 1 }

/-- Embedding of `upload_multiple_images` (upload.py lines 151-187). -/
def uploadMultipleImages (up : String → UploadResult) (paths : List String) : BatchResults :=
  paths.foldl (uploadStep up) { total := paths.length, successful := 0, failed := 0, uploads := [] }

lemma countP_success_add_countP_fail (l : List UploadResult) :
    l.countP (fun r => r.success) + l.countP (fun r => !r.success) = l.length := by
  induction l with
  | nil => rfl
  | cons r rest ih =>
    simp only [List.countP_cons, List.length_cons]
    cases h : r.success <;> simp [h] <;> omega

lemma uploadMultipleImages_foldl (up : String → UploadResult) :
    ∀ (paths : List String) (acc : BatchResults),
      (paths.foldl (uploadStep up) acc).total = acc.total
      ∧ (paths.foldl (uploadStep up) acc).uploads = acc.uploads ++ paths.map up
      ∧ (paths.foldl (uploadStep up) acc).successful
          = acc.successful + (paths.map up).countP (fun r => r.success)
      ∧ (paths.foldl (uploadStep up) acc).failed
          = acc.failed + (paths.map up).countP (fun r => !r.success) := by
  intro paths
  induction paths with
  | nil => intro acc; simp
  | cons p ps ih =>
    intro acc
    obtain ⟨h1, h2, h3, h4⟩ := ih (uploadStep up acc p)
    refine ⟨?_, ?_, ?_, ?_⟩
    · rw [List.foldl_cons, h1]
      simp [uploadStep]
    · rw [List.foldl_cons, h2]
      simp [uploadStep, List.append_assoc]
    · rw [List.foldl_cons, h3]
      simp only [List.map_cons, List.countP_cons]
      cases hs : (up p).success <;> simp [uploadStep, hs] <;> omega
    · rw [List.foldl_cons, h4]
      simp only [List.map_cons, List.countP_cons]
      cases hs : (up p).success <;> simp [uploadStep, hs] <;> omega

lemma uploadImageToImgur_originalPath (fileExists : String → Bool) (extOf : String → String)
    (net : String → NetOutcome) (clientId accessToken : Option String) (p : String) :
    (uploadImageToImgur fileExists extOf net clientId accessToken p).originalPath = p := by
  unfold uploadImageToImgur
  repeat' split
  all_goals rfl

/-- C6: for every input path list, the aggregator satisfies
successful + failed = total = number of inputs, and the uploads list holds
exactly the per-path results, one per input path, in input order. -/
theorem C6_upload_aggregator_counts (fileExists : String → Bool) (extOf : String → String)
    (net : String → NetOutcome) (clientId accessToken : Option String)
    (paths : List String) :
    (uploadMultipleImages (uploadImageToImgur fileExists extOf net clientId accessToken)
        paths).successful
      + (uploadMultipleImages (uploadImageToImgur fileExists extOf net clientId accessToken)
          paths).failed
      = (uploadMultipleImages (uploadImageToImgur fileExists extOf net clientId accessToken)
          paths).total
    ∧ (uploadMultipleImages (uploadImageToImgur fileExists extOf net clientId accessToken)
        paths).total = paths.length
    ∧ (uploadMultipleImages (uploadImageToImgur fileExists extOf net clientId accessToken)
        paths).uploads
      = paths.map (uploadImageToImgur fileExists extOf net clientId accessToken)
    ∧ ((uploadMultipleImages (uploadImageToImgur fileExists extOf net clientId accessToken)
        paths).uploads.map UploadResult.originalPath) = paths := by
  obtain ⟨h1, h2, h3, h4⟩ := uploadMultipleImages_foldl
    (uploadImageToImgur fileExists extOf net clientId accessToken) paths
    { total := paths.length, successful := 0, failed := 0, uploads := [] }
  unfold uploadMultipleImages
  refine ⟨?_, ?_, ?_, ?_⟩
  · rw [h3, h4, h1]
    simp only [Nat.zero_add]
    have hc := countP_success_add_countP_fail
      (paths.map (uploadImageToImgur fileExists extOf net clientId accessToken))
    simp only [List.length_map] at hc
    omega
  · exact h1
  · simpa using h2
  · rw [h2]
    simp only [List.nil_append, List.map_map]
    have hcomp : (UploadResult.originalPath ∘
        uploadImageToImgur fileExists extOf net clientId accessToken) = id := by
      funext p
      exact uploadImageToImgur_originalPath fileExists extOf net clientId accessToken p
    rw [hcomp, List.map_id]

/-! ## Imgur OAuth token helper (get_token.py)

The interactive inputs are the Client ID, the pasted redirect URL and the
save answer, modelled as character lists. The strip() calls are embedded
as whitespace trimming over the str.isspace() character set, and the
regex searches of the script as character scans: the pattern for a field
captures a nonempty run of characters other than the ampersand right
after the first position where the key matches, exactly like re.search
with pattern key followed by one-or-more non-ampersand characters. When
an expires_in field is captured, the script converts it with int() at
line 123; a ValueError there escapes main and is turned into exit code 1
by the module-level handler at lines 182-184, so the acceptance of int()
on the captured characters is modelled as well.
-/

/-- The whitespace characters of str.isspace(), the set stripped by
str.strip() with no argument and skipped around an int() literal:
U+0009-U+000D, U+001C-U+0020, next line, no-break space, ogham space mark,
the U+2000-U+200A spaces, the line and paragraph separators, narrow
no-break space, medium mathematical space and ideographic space. -/
def isSpaceChar (c : Char) : Bool :=
  let n := c.toNat
  (0x9 ≤ n && n ≤ 0xd) || (0x1c ≤ n && n ≤ 0x20) || n == 0x85 || n == 0xa0 ||
    n == 0x1680 || (0x2000 ≤ n && n ≤ 0x200a) || n == 0x2028 || n == 0x2029 ||
    n == 0x202f || n == 0x205f || n == 0x3000

/-- Embedding of str.strip(): drop whitespace from both ends. -/
def trimChars (s : List Char) : List Char :=
  ((s.dropWhile isSpaceChar).reverse.dropWhile isSpaceChar).reverse

/-- Whether `key` is a leading piece of `s`, character by character. -/
def startsWithChars : List Char → List Char → Bool
  | [], _ => true
  | _ :: _, [] => false
  | k :: ks, c :: cs => k == c && startsWithChars ks cs

/-- Leftmost regex-style search: at each position, try to match `key`
followed by a nonempty run of characters other than the ampersand, and
capture that run (the `re.search` calls at get_token.py lines 78-81). -/
def findCapture (key : List Char) : List Char → Option (List Char)
  | [] => none
  | c :: cs =>
    if startsWithChars key (c :: cs) then
      let cap := ((c :: cs).drop key.length).takeWhile (fun ch => ch ≠ '&')
      if cap.isEmpty then findCapture key cs else some cap
    else findCapture key cs

/-- Whether `key` occurs as a contiguous run anywhere in the string. -/
def containsKey (key : List Char) : List Char → Bool
  | [] => key.isEmpty
  | c :: cs => startsWithChars key (c :: cs) || containsKey key cs

/-- Observable outcome of a get_token.py run: the process exit code and
whether the credentials file was written. -/
structure TokenOutcome where
  exitCode : Nat
  wroteFile : Bool
  deriving DecidableEq, Repr

/-- The decimal-digit characters accepted inside an int() literal: the
Unicode characters carrying a decimal-digit value (category Nd). -/
def isPyDigit (c : Char) : Bool :=
  let n := c.toNat
  (0x30 ≤ n && n ≤ 0x39) || (0x660 ≤ n && n ≤ 0x669) ||
    (0x6f0 ≤ n && n ≤ 0x6f9) || (0x7c0 ≤ n && n ≤ 0x7c9) ||
    (0x966 ≤ n && n ≤ 0x96f) || (0x9e6 ≤ n && n ≤ 0x9ef) ||
    (0xa66 ≤ n && n ≤ 0xa6f) || (0xae6 ≤ n && n ≤ 0xaef) ||
    (0xb66 ≤ n && n ≤ 0xb6f) || (0xbe6 ≤ n && n ≤ 0xbef) ||
    (0xc66 ≤ n && n ≤ 0xc6f) || (0xce6 ≤ n && n ≤ 0xcef) ||
    (0xd66 ≤ n && n ≤ 0xd6f) || (0xde6 ≤ n && n ≤ 0xdef) ||
    (0xe50 ≤ n && n ≤ 0xe59) || (0xed0 ≤ n && n ≤ 0xed9) ||
    (0xf20 ≤ n && n ≤ 0xf29) || (0x1040 ≤ n && n ≤ 0x1049) ||
    (0x1090 ≤ n && n ≤ 0x1099) || (0x17e0 ≤ n && n ≤ 0x17e9) ||
    (0x1810 ≤ n && n ≤ 0x1819) || (0x1946 ≤ n && n ≤ 0x194f) ||
    (0x19d0 ≤ n && n ≤ 0x19d9) || (0x1a80 ≤ n && n ≤ 0x1a89) ||
    (0x1a90 ≤ n && n ≤ 0x1a99) || (0x1b50 ≤ n && n ≤ 0x1b59) ||
    (0x1bb0 ≤ n && n ≤ 0x1bb9) || (0x1c40 ≤ n && n ≤ 0x1c49) ||
    (0x1c50 ≤ n && n ≤ 0x1c59) || (0xa620 ≤ n && n ≤ 0xa629) ||
    (0xa8d0 ≤ n && n ≤ 0xa8d9) || (0xa900 ≤ n && n ≤ 0xa909) ||
    (0xa9d0 ≤ n && n ≤ 0xa9d9) || (0xa9f0 ≤ n && n ≤ 0xa9f9) ||
    (0xaa50 ≤ n && n ≤ 0xaa59) || (0xabf0 ≤ n && n ≤ 0xabf9) ||
    (0xff10 ≤ n && n ≤ 0xff19) || (0x104a0 ≤ n && n ≤ 0x104a9) ||
    (0x10d30 ≤ n && n ≤ 0x10d39) || (0x11066 ≤ n && n ≤ 0x1106f) ||
    (0x110f0 ≤ n && n ≤ 0x110f9) || (0x11136 ≤ n && n ≤ 0x1113f) ||
    (0x111d0 ≤ n && n ≤ 0x111d9) || (0x112f0 ≤ n && n ≤ 0x112f9) ||
    (0x11450 ≤ n && n ≤ 0x11459) || (0x114d0 ≤ n && n ≤ 0x114d9) ||
    (0x11650 ≤ n && n ≤ 0x11659) || (0x116c0 ≤ n && n ≤ 0x116c9) ||
    (0x11730 ≤ n && n ≤ 0x11739) || (0x118e0 ≤ n && n ≤ 0x118e9) ||
    (0x11950 ≤ n && n ≤ 0x11959) || (0x11c50 ≤ n && n ≤ 0x11c59) ||
    (0x11d50 ≤ n && n ≤ 0x11d59) || (0x11da0 ≤ n && n ≤ 0x11da9) ||
    (0x16a60 ≤ n && n ≤ 0x16a69) || (0x16ac0 ≤ n && n ≤ 0x16ac9) ||
    (0x16b50 ≤ n && n ≤ 0x16b59) || (0x1d7ce ≤ n && n ≤ 0x1d7ff) ||
    (0x1e140 ≤ n && n ≤ 0x1e149) || (0x1e2f0 ≤ n && n ≤ 0x1e2f9) ||
    (0x1e950 ≤ n && n ≤ 0x1e959) || (0x1fbf0 ≤ n && n ≤ 0x1fbf9)

/-- Continuation of the digit run of an int() literal after its first
digit: further digits, single underscores standing between two digits,
then at most trailing whitespace. -/
def pyIntTail : List Char → Bool
  | [] => true
  | '_' :: c :: rest => isPyDigit c && pyIntTail rest
  | ['_'] => false
  | c :: rest => if isPyDigit c then pyIntTail rest else (c :: rest).all isSpaceChar

/-- Whether int() accepts a string: optional whitespace, an optional
sign, a nonempty digit run with single underscores between digits, then
optional whitespace; anything else raises ValueError, as at
get_token.py line 123. -/
def pyIntOk (s : List Char) : Bool :=
  let t1 := s.dropWhile isSpaceChar
  let t2 :=
    match t1 with
    | c :: rest => if c == '+' || c == '-' then rest else t1
    | [] => t1
  match t2 with
  | c :: rest => isPyDigit c && pyIntTail rest
  | [] => false

/-- Embedding of `main` of get_token.py: empty Client ID exits 1 (lines
24-28); empty URL exits 1 (lines 67-71); a URL without an extractable
access_token field prints the error block and exits 1 (lines 78-95)
before the save prompt is ever reached; when an expires_in field was also
captured, `int(expires_in)` runs at line 123, and a ValueError there
escapes to the module-level handler (lines 182-184), which exits 1 before
the save prompt; otherwise the run completes with exit code 0 and writes
the credentials file exactly when the lower-cased save answer is y
(lines 146-168). -/
def getTokenMain (clientId redirectUrl saveAnswer : List Char) : TokenOutcome :=
  if (trimChars clientId).isEmpty then ⟨1, false⟩
  else if (trimChars redirectUrl).isEmpty then ⟨1, false⟩
  else
    match findCapture "access_token=".toList (trimChars redirectUrl) with
    | none => ⟨1, false⟩
    | some _ =>
      match findCapture "expires_in=".toList (trimChars redirectUrl) with
      | some expiresCap =>
        if pyIntOk expiresCap then
          if (trimChars saveAnswer).map Char.toLower = ['y'] then ⟨0, true⟩
          else ⟨0, false⟩
        else ⟨1, false⟩
      | none =>
        if (trimChars saveAnswer).map Char.toLower = ['y'] then ⟨0, true⟩
        else ⟨0, false⟩

lemma findCapture_none_of_not_containsKey (key : List Char) :
    ∀ s : List Char, containsKey key s = false → findCapture key s = none := by
  intro s
  induction s with
  | nil => intro _; rfl
  | cons c cs ih =>
    intro h
    simp only [containsKey, Bool.or_eq_false_iff] at h
    simp only [findCapture, h.1, Bool.false_eq_true, if_false]
    exact ih h.2

/-- C7: for every run whose pasted redirect URL (after stripping) does not
contain the access_token field, the token helper exits with code 1 and
writes no credentials file, whatever the Client ID and save answer are. -/
theorem C7_no_token_no_write (clientId redirectUrl saveAnswer : List Char)
    (h : containsKey "access_token=".toList (trimChars redirectUrl) = false) :
    (getTokenMain clientId redirectUrl saveAnswer).exitCode = 1
    ∧ (getTokenMain clientId redirectUrl saveAnswer).wroteFile = false := by
  have hext : findCapture "access_token=".toList (trimChars redirectUrl) = none :=
    findCapture_none_of_not_containsKey _ _ h
  unfold getTokenMain
  rw [hext]
  by_cases h1 : (trimChars clientId).isEmpty <;>
    by_cases h2 : (trimChars redirectUrl).isEmpty <;>
      simp [h1, h2]

/-- Witness for C7: a redirect URL carrying only an error field. -/
theorem C7_no_token_witness :
    containsKey "access_token=".toList
        (trimChars "https://localhost/?error=access_denied".toList) = false
    ∧ (getTokenMain "abc123".toList "https://localhost/?error=access_denied".toList
        "y".toList).exitCode = 1
    ∧ (getTokenMain "abc123".toList "https://localhost/?error=access_denied".toList
        "y".toList).wroteFile = false :=
  ⟨by decide,
    C7_no_token_no_write "abc123".toList "https://localhost/?error=access_denied".toList
      "y".toList (by decide)⟩

/-! ## GitHub exporter: language statistics (fetch.py, `GitHubUserDataFetcher.fetch_language_stats`)

The per-repository JSON files read back from disk are modelled as a list
of records carrying the language field (absent for repositories without a
detected language) and the size field in kilobytes. The accumulation loop
(lines 483-497) is embedded as a fold over that list building the
language table in insertion order together with the running total; the
percentage pass (lines 500-504) divides by the total and rounds to two
decimal places. Python rounds floats half-to-even; the model computes in
ℚ with round-to-nearest, and the claims proved here depend only on the
rounded value lying within half an ulp of the exact one, which holds for
either tie rule.
-/

/-- The fields of one repository record used by fetch_language_stats. -/
structure RepoRecord where
  language : Option String
  size : Nat
  deriving DecidableEq, Repr

/-- One row of the language table: repo_count and total_size_kb. -/
structure LangStat where
  repoCount : Nat
  totalSizeKb : Nat
  deriving DecidableEq, Repr

/-- Insert one sized repository into the language table, creating the row
on first sight of the language (fetch.py lines 489-496). -/
def updateLang : List (String × LangStat) → String → Nat → List (String × LangStat)
  | [], l, sz => [(l, ⟨1, sz⟩)]
  | (l', st) :: rest, l, sz =>
    if l' = l then (l', ⟨st.repoCount + 1, st.totalSizeKb + sz⟩) :: rest
    else (l', st) :: updateLang rest l sz

/-- One loop iteration of fetch_language_stats: repositories without a
language contribute neither a row nor size (the `if language:` guard), and
`total_size` grows only alongside a language row. -/
def langStatsStep (acc : List (String × LangStat) × Nat) (r : RepoRecord) :
    List (String × LangStat) × Nat :=
  match r.language with
  | none => acc
  | some l => (updateLang acc.1 l r.size, acc.2 + r.size)

/-- The language table and total size computed by fetch_language_stats
before the percentage pass. -/
def languageStats (repos : List RepoRecord) : List (String × LangStat) × Nat :=
  repos.foldl langStatsStep ([], 0)

/-- Rounding to two decimal places, round(x, 2). -/
def roundTo2 (x : ℚ) : ℚ := (round (x * 100) : ℚ) / 100

/-- The percentage written for one language row (fetch.py lines 500-504):
size over total times 100 when the total is positive, else 0, rounded to
two decimals. -/
def langPercentage (total : Nat) (sizeKb : Nat) : ℚ :=
  roundTo2 (if 0 < total then (sizeKb : ℚ) / (total : ℚ) * 100 else 0)

lemma updateLang_sum (l : String) (sz : Nat) :
    ∀ stats : List (String × LangStat),
      ((updateLang stats l sz).map (fun e => e.2.totalSizeKb)).sum
        = (stats.map (fun e => e.2.totalSizeKb)).sum + sz := by
  intro stats
  induction stats with
  | nil => simp [updateLang]
  | cons e rest ih =>
    obtain ⟨l', st⟩ := e
    by_cases h : l' = l
    · simp [updateLang, h]
      omega
    · simp [updateLang, h, ih]
      omega

lemma languageStats_invariant :
    ∀ (repos : List RepoRecord) (acc : List (String × LangStat) × Nat),
      ((repos.foldl langStatsStep acc).1.map (fun e => e.2.totalSizeKb)).sum
          = (acc.1.map (fun e => e.2.totalSizeKb)).sum
            + ((repos.filter (fun r => r.language.isSome)).map RepoRecord.size).sum
      ∧ (repos.foldl langStatsStep acc).2
          = acc.2 + ((repos.filter (fun r => r.language.isSome)).map RepoRecord.size).sum := by
  intro repos
  induction repos with
  | nil => intro acc; simp
  | cons r rest ih =>
    intro acc
    cases hl : r.language with
    | none =>
      obtain ⟨ha, hb⟩ := ih acc
      simp only [List.foldl_cons, langStatsStep, hl]
      simp only [List.filter_cons, hl, Option.isSome_none, Bool.false_eq_true, if_false]
      exact ⟨ha, hb⟩
    | some l =>
      obtain ⟨ha, hb⟩ := ih (updateLang acc.1 l r.size, acc.2 + r.size)
      simp only [List.foldl_cons, langStatsStep, hl]
      simp only at ha hb
      rw [ha, hb, updateLang_sum]
      simp only [List.filter_cons, hl, Option.isSome_some, if_true, List.map_cons,
        List.sum_cons]
      constructor <;> omega

/-- The sum of the per-language sizes equals the reported total size. -/
lemma languageStats_sum_eq_total (repos : List RepoRecord) :
    (((languageStats repos).1).map (fun e => e.2.totalSizeKb)).sum
      = (languageStats repos).2 := by
  obtain ⟨ha, hb⟩ := languageStats_invariant repos ([], 0)
  unfold languageStats
  rw [ha, hb]
  simp

lemma abs_roundTo2_sub_le (x : ℚ) : |roundTo2 x - x| ≤ 1 / 200 := by
  have h2 : roundTo2 x - x = ((round (x * 100) : ℚ) - x * 100) / 100 := by
    unfold roundTo2; ring
  rw [h2, abs_div]
  have habs : |(100 : ℚ)| = 100 := by norm_num
  rw [habs]
  have h : |(round (x * 100) : ℚ) - x * 100| ≤ 1 / 2 := by
    rw [abs_sub_comm]
    exact abs_sub_round (x * 100)
  linarith

lemma abs_sum_map_sub_le {β : Type} (c : ℚ) (f g : β → ℚ) :
    ∀ L : List β, (∀ a ∈ L, |f a - g a| ≤ c) →
      |(L.map f).sum - (L.map g).sum| ≤ L.length * c := by
  intro L
  induction L with
  | nil => intro _; simp
  | cons a rest ih =>
    intro h
    simp only [List.map_cons, List.sum_cons, List.length_cons]
    have h1 := h a (List.mem_cons_self a rest)
    have h2 := ih (fun b hb => h b (List.mem_cons_of_mem a hb))
    have htri : |f a + (rest.map f).sum - (g a + (rest.map g).sum)|
        ≤ |f a - g a| + |(rest.map f).sum - (rest.map g).sum| := by
      have heq : f a + (rest.map f).sum - (g a + (rest.map g).sum)
          = (f a - g a) + ((rest.map f).sum - (rest.map g).sum) := by ring
      rw [heq]
      exact abs_add _ _
    push_cast
    linarith

lemma exact_percentage_sum (total : Nat) (ht : 0 < total)
    (stats : List (String × LangStat))
    (hsum : (stats.map (fun e => e.2.totalSizeKb)).sum = total) :
    (stats.map (fun e => (e.2.totalSizeKb : ℚ) / (total : ℚ) * 100)).sum = 100 := by
  have htQ : (total : ℚ) ≠ 0 := Nat.cast_ne_zero.mpr (Nat.pos_iff_ne_zero.mp ht)
  have h1 : ∀ L : List (String × LangStat),
      (L.map (fun e => (e.2.totalSizeKb : ℚ) / (total : ℚ) * 100)).sum
        = (((L.map (fun e => e.2.totalSizeKb)).sum : Nat) : ℚ) / (total : ℚ) * 100 := by
    intro L
    induction L with
    | nil => simp
    | cons e rest ih =>
      simp only [List.map_cons, List.sum_cons, ih]
      push_cast
      ring
  rw [h1, hsum, div_self htQ, one_mul]

/-- C5: for every list of repository records, the language table computed
by fetch_language_stats satisfies: the per-language sizes sum to at most
the reported total size; when the total is positive the rounded
percentages sum to 100 up to the accumulated rounding slack (half an ulp,
1/200, per language); and when the total is zero every percentage is 0. -/
theorem C5_language_stats_properties (repos : List RepoRecord) :
    (((languageStats repos).1).map (fun e => e.2.totalSizeKb)).sum ≤ (languageStats repos).2
    ∧ (0 < (languageStats repos).2 →
        |(((languageStats repos).1).map
            (fun e => langPercentage (languageStats repos).2 e.2.totalSizeKb)).sum - 100|
          ≤ ((languageStats repos).1).length * (1 / 200))
    ∧ ((languageStats repos).2 = 0 →
        ∀ e ∈ (languageStats repos).1,
          langPercentage (languageStats repos).2 e.2.totalSizeKb = 0) := by
  refine ⟨le_of_eq (languageStats_sum_eq_total repos), ?_, ?_⟩
  · intro ht
    have hg : (((languageStats repos).1).map
        (fun e => (e.2.totalSizeKb : ℚ) / ((languageStats repos).2 : ℚ) * 100)).sum = 100 :=
      exact_percentage_sum (languageStats repos).2 ht (languageStats repos).1
        (languageStats_sum_eq_total repos)
    have hbound := abs_sum_map_sub_le (1 / 200)
      (fun e => langPercentage (languageStats repos).2 e.2.totalSizeKb)
      (fun e => (e.2.totalSizeKb : ℚ) / ((languageStats repos).2 : ℚ) * 100)
      (languageStats repos).1 ?_
    · rw [hg] at hbound
      exact hbound
    · intro a _
      have hpe : langPercentage (languageStats repos).2 a.2.totalSizeKb
          = roundTo2 ((a.2.totalSizeKb : ℚ) / ((languageStats repos).2 : ℚ) * 100) := by
        unfold langPercentage
        rw [if_pos ht]
      dsimp only
      rw [hpe]
      exact abs_roundTo2_sub_le _
  · intro h0 e _
    rw [h0]
    simp [langPercentage, roundTo2]

/-- Witness for C5: two languages of sizes 10 and 30 kilobytes. -/
theorem C5_language_stats_witness :
    0 < (languageStats [⟨some "Python", 10⟩, ⟨some "C", 30⟩]).2
    ∧ |(((languageStats [⟨some "Python", 10⟩, ⟨some "C", 30⟩]).1).map
        (fun e => langPercentage (languageStats [⟨some "Python", 10⟩, ⟨some "C", 30⟩]).2
          e.2.totalSizeKb)).sum - 100|
      ≤ ((languageStats [⟨some "Python", 10⟩, ⟨some "C", 30⟩]).1).length * (1 / 200) :=
  ⟨by decide, (C5_language_stats_properties [⟨some "Python", 10⟩, ⟨some "C", 30⟩]).2.1 (by decide)⟩

/-! ## Image generator: base64 data URLs (generate.py)

`encode_image_to_base64` base64-encodes the bytes of a reference image and
wraps them in a data URL with a mime type chosen from the file extension;
`save_base64_image` strips the data-URL head up to the first comma when
the string starts with data:image, base64-decodes the rest and writes the
bytes. Bytes are modelled as natural numbers below 256 and the standard
base64 encoding with padding is spelled out; the decoder models
base64.b64decode on its valid inputs: discard padding, map alphabet
characters to six-bit groups and repack them into bytes.
-/

/-- The standard base64 alphabet. -/
def base64Alphabet : List Char :=
  "ABCDEFGHIJKLMNOPQRSTUVWXYZabcdefghijklmnopqrstuvwxyz0123456789+/".toList

/-- Character for one six-bit group. -/
def sextetChar (n : Nat) : Char := base64Alphabet.getD n 'A'

/-- Six-bit group of one alphabet character. -/
def charSextet (c : Char) : Nat := base64Alphabet.indexOf c

/-- Standard base64 encoding of a byte list, with padding, as performed by
base64.b64encode: three bytes become four characters, a two-byte tail
becomes three characters and one pad, a one-byte tail two characters and
two pads. -/
def encodeB64 : List Nat → List Char
  | [] => []
  | [b1] =>
    [sextetChar (b1 / 4), sextetChar (b1 % 4 * 16), '=', '=']
  | [b1, b2] =>
    [sextetChar (b1 / 4), sextetChar (b1 % 4 * 16 + b2 / 16), sextetChar (b2 % 16 * 4), '=']
  | b1 :: b2 :: b3 :: rest =>
    sextetChar (b1 / 4) :: sextetChar (b1 % 4 * 16 + b2 / 16)
      :: sextetChar (b2 % 16 * 4 + b3 / 64) :: sextetChar (b3 % 64) :: encodeB64 rest

/-- Repack six-bit groups into bytes: four groups give three bytes, three
give two, two give one. -/
def decodeSextets : List Nat → List Nat
  | [s1, s2] => [s1 * 4 + s2 / 16]
  | [s1, s2, s3] => [s1 * 4 + s2 / 16, s2 % 16 * 16 + s3 / 4]
  | s1 :: s2 :: s3 :: s4 :: rest =>
    (s1 * 4 + s2 / 16) :: (s2 % 16 * 16 + s3 / 4) :: (s3 % 4 * 64 + s4) :: decodeSextets rest
  | _ => []

/-- Model of base64.b64decode on validly padded input: drop the padding,
map the alphabet characters to six-bit groups, repack into bytes. -/
def decodeB64 (cs : List Char) : List Nat :=
  decodeSextets ((cs.filter (fun c => !(c == '='))).map charSextet)

lemma charSextet_sextetChar : ∀ n : Nat, n < 64 → charSextet (sextetChar n) = n := by decide

lemma sextetChar_not_pad : ∀ n : Nat, n < 64 → (!(sextetChar n == '=')) = true := by decide

lemma decodeB64_encode_single (b1 : Nat) (h1 : b1 < 256) :
    decodeB64 (encodeB64 [b1]) = [b1] := by
  have e1 := sextetChar_not_pad (b1 / 4) (by omega)
  have e2 := sextetChar_not_pad (b1 % 4 * 16) (by omega)
  have m1 := charSextet_sextetChar (b1 / 4) (by omega)
  have m2 := charSextet_sextetChar (b1 % 4 * 16) (by omega)
  have epad : (!(('=' : Char) == '=')) = false := by decide
  simp only [encodeB64, decodeB64, List.filter_cons, e1, e2, epad, if_true, if_false,
    Bool.false_eq_true, List.filter_nil, List.map_cons, List.map_nil, m1, m2, decodeSextets]
  simp only [List.cons.injEq, and_true]
  omega

lemma decodeB64_encode_pair (b1 b2 : Nat) (h1 : b1 < 256) (h2 : b2 < 256) :
    decodeB64 (encodeB64 [b1, b2]) = [b1, b2] := by
  have e1 := sextetChar_not_pad (b1 / 4) (by omega)
  have e2 := sextetChar_not_pad (b1 % 4 * 16 + b2 / 16) (by omega)
  have e3 := sextetChar_not_pad (b2 % 16 * 4) (by omega)
  have m1 := charSextet_sextetChar (b1 / 4) (by omega)
  have m2 := charSextet_sextetChar (b1 % 4 * 16 + b2 / 16) (by omega)
  have m3 := charSextet_sextetChar (b2 % 16 * 4) (by omega)
  have epad : (!(('=' : Char) == '=')) = false := by decide
  simp only [encodeB64, decodeB64, List.filter_cons, e1, e2, e3, epad, if_true, if_false,
    Bool.false_eq_true, List.filter_nil, List.map_cons, List.map_nil, m1, m2, m3,
    decodeSextets]
  simp only [List.cons.injEq, and_true]
  constructor
  · omega
  · omega

lemma decodeB64_encode_cons4 (b1 b2 b3 : Nat) (rest : List Nat)
    (h1 : b1 < 256) (h2 : b2 < 256) (h3 : b3 < 256) :
    decodeB64 (encodeB64 (b1 :: b2 :: b3 :: rest))
      = b1 :: b2 :: b3 :: decodeB64 (encodeB64 rest) := by
  have e1 := sextetChar_not_pad (b1 / 4) (by omega)
  have e2 := sextetChar_not_pad (b1 % 4 * 16 + b2 / 16) (by omega)
  have e3 := sextetChar_not_pad (b2 % 16 * 4 + b3 / 64) (by omega)
  have e4 := sextetChar_not_pad (b3 % 64) (by omega)
  have m1 := charSextet_sextetChar (b1 / 4) (by omega)
  have m2 := charSextet_sextetChar (b1 % 4 * 16 + b2 / 16) (by omega)
  have m3 := charSextet_sextetChar (b2 % 16 * 4 + b3 / 64) (by omega)
  have m4 := charSextet_sextetChar (b3 % 64) (by omega)
  have henc : encodeB64 (b1 :: b2 :: b3 :: rest)
      = sextetChar (b1 / 4) :: sextetChar (b1 % 4 * 16 + b2 / 16)
        :: sextetChar (b2 % 16 * 4 + b3 / 64) :: sextetChar (b3 % 64)
        :: encodeB64 rest := rfl
  rw [henc]
  simp only [decodeB64, List.filter_cons, e1, e2, e3, e4, if_true, List.map_cons,
    m1, m2, m3, m4, decodeSextets]
  simp only [List.cons.injEq]
  refine ⟨by omega, by omega, by omega, trivial⟩

lemma decodeB64_encodeB64_bounded :
    ∀ (n : Nat) (bs : List Nat), bs.length ≤ n → (∀ b ∈ bs, b < 256) →
      decodeB64 (encodeB64 bs) = bs := by
  intro n
  induction n with
  | zero =>
    intro bs hlen _
    have : bs = [] := List.length_eq_zero.mp (Nat.le_zero.mp hlen)
    subst this
    rfl
  | succ n ih =>
    intro bs hlen hb
    match bs with
    | [] => rfl
    | [b1] => exact decodeB64_encode_single b1 (hb b1 (by simp))
    | [b1, b2] => exact decodeB64_encode_pair b1 b2 (hb b1 (by simp)) (hb b2 (by simp))
    | b1 :: b2 :: b3 :: rest =>
      rw [decodeB64_encode_cons4 b1 b2 b3 rest (hb b1 (by simp)) (hb b2 (by simp))
        (hb b3 (by simp))]
      rw [ih rest (by simp at hlen ⊢; omega) (fun b hb' => hb b (by simp [hb']))]

/-- The extension-to-mime lookup of `encode_image_to_base64` (generate.py
lines 52-59), with image/png as the default. -/
def mimeFor (ext : String) : String :=
  if ext = ".png" then "image/png"
  else if ext = ".jpg" then "image/jpeg"
  else if ext = ".jpeg" then "image/jpeg"
  else if ext = ".gif" then "image/gif"
  else if ext = ".webp" then "image/webp"
  else "image/png"

/-- Embedding of `encode_image_to_base64` (generate.py lines 41-64) on the
bytes read from the reference image file: the data URL built at line 61. -/
def encodeImageToBase64 (ext : String) (fileBytes : List Nat) : List Char :=
  ("data:" ++ mimeFor ext ++ ";base64,").toList ++ encodeB64 fileBytes

/-- Everything after the first comma, the split(",", 1)[1] of
save_base64_image; on the data URLs handled here a comma is always
present, so the Python IndexError branch is unreachable. -/
def afterFirstComma (cs : List Char) : List Char :=
  (cs.dropWhile (fun c => !(c == ','))).drop 1

/-- Embedding of `save_base64_image` (generate.py lines 183-215): strip
the data-URL head when the string starts with data:image, then decode and
return the written bytes. -/
def saveBase64Image (dataUrl : List Char) : List Nat :=
  decodeB64
    (if startsWithChars "data:image".toList dataUrl then afterFirstComma dataUrl
     else dataUrl)

lemma startsWithChars_append_of (key : List Char) :
    ∀ (l rest : List Char), startsWithChars key l = true →
      startsWithChars key (l ++ rest) = true := by
  induction key with
  | nil => intro l rest _; rfl
  | cons k ks ih =>
    intro l rest h
    cases l with
    | nil => simp [startsWithChars] at h
    | cons c cs =>
      simp only [startsWithChars, Bool.and_eq_true] at h
      simp only [List.cons_append, startsWithChars, Bool.and_eq_true]
      exact ⟨h.1, ih cs rest h.2⟩

lemma afterFirstComma_append :
    ∀ p rest : List Char, (∀ c ∈ p, (c == ',') = false) →
      afterFirstComma (p ++ ',' :: rest) = rest := by
  intro p
  induction p with
  | nil =>
    intro rest _
    simp [afterFirstComma, List.dropWhile_cons]
  | cons c cs ih =>
    intro rest h
    have hc : (c == ',') = false := h c (List.mem_cons_self c cs)
    simp only [List.cons_append, afterFirstComma, List.dropWhile_cons, hc, Bool.not_false,
      if_true]
    exact ih rest (fun d hd => h d (List.mem_cons_of_mem c hd))

lemma saveBase64Image_data_url (m : String) (bytes : List Nat)
    (hb : ∀ b ∈ bytes, b < 256)
    (hsw : startsWithChars "data:image".toList ("data:" ++ m ++ ";base64,").toList = true)
    (hnc : ∀ c ∈ ("data:" ++ m ++ ";base64").toList, (c == ',') = false)
    (hsplit : ("data:" ++ m ++ ";base64,").toList
      = ("data:" ++ m ++ ";base64").toList ++ [',']) :
    saveBase64Image (("data:" ++ m ++ ";base64,").toList ++ encodeB64 bytes) = bytes := by
  unfold saveBase64Image
  have hcond := startsWithChars_append_of "data:image".toList
    ("data:" ++ m ++ ";base64,").toList (encodeB64 bytes) hsw
  rw [if_pos hcond, hsplit, List.append_assoc]
  have hsingle : ([','] : List Char) ++ encodeB64 bytes = ',' :: encodeB64 bytes := rfl
  rw [hsingle, afterFirstComma_append _ _ hnc]
  exact decodeB64_encodeB64_bounded bytes.length bytes le_rfl hb

/-- C10: for every byte sequence of a readable reference image, encoding
it to a base64 data URL with encode_image_to_base64 and then feeding that
data URL to save_base64_image writes back exactly the original bytes: the
data-URL head stripping inverts the encoding. -/
theorem C10_data_url_round_trip (ext : String) (bytes : List Nat)
    (h : ∀ b ∈ bytes, b < 256) :
    saveBase64Image (encodeImageToBase64 ext bytes) = bytes := by
  unfold encodeImageToBase64
  have hm : mimeFor ext = "image/png" ∨ mimeFor ext = "image/jpeg"
      ∨ mimeFor ext = "image/gif" ∨ mimeFor ext = "image/webp" := by
    unfold mimeFor
    repeat' split
    all_goals simp
  rcases hm with h1 | h1 | h1 | h1 <;> rw [h1] <;>
    exact saveBase64Image_data_url _ bytes h (by decide) (by decide) (by decide)

/-- Witness for C10 on the bytes 72, 105, 33 with a png extension. -/
theorem C10_data_url_witness :
    (∀ b ∈ [72, 105, 33], b < 256)
    ∧ saveBase64Image (encodeImageToBase64 ".png" [72, 105, 33]) = [72, 105, 33] :=
  ⟨by decide, C10_data_url_round_trip ".png" [72, 105, 33] (by decide)⟩

/-! ## Process exit codes (all scripts)

upload.py exits with `0 if results.failed == 0 else 1` and exits 1 from
get_authentication when no credential is available; download.py returns 1
from its argument validation and from the two subprocess failure branches
and 0 on success, and main's return value is passed to sys.exit;
generate.py exits 1 from every failure branch and falls off main (exit 0)
after a successful save; get_token.py is modelled above. fetch.py's main,
however, calls fetch_all — which swallows every exception and always
returns — and then returns None itself, so the exporter process exits 0
on every run, errors included.
-/

/-- The credential selection of upload.py main (lines 296-302) together
with get_authentication (lines 190-221): command-line values win when
either is present, then the environment, and with nothing available the
script exits 1. The placeholder DEFAULT_CLIENT_ID is never a credential. -/
def uploadAuthSelection (cliClientId cliAccessToken envClientId envAccessToken : Option String) :
    Option (Option String × Option String) :=
  if cliClientId.isSome || cliAccessToken.isSome then some (cliClientId, cliAccessToken)
  else if envAccessToken.isSome || envClientId.isSome then some (envClientId, envAccessToken)
  else none

/-- Exit code of upload.py main (line 350: `0 if results.failed == 0 else 1`). -/
def uploadMainExit (cliClientId cliAccessToken envClientId envAccessToken : Option String)
    (fileExists : String → Bool) (extOf : String → String) (net : String → NetOutcome)
    (paths : List String) : Nat :=
  match uploadAuthSelection cliClientId cliAccessToken envClientId envAccessToken with
  | none => 1
  | some (cid, tok) =>
    if (uploadMultipleImages (uploadImageToImgur fileExists extOf net cid tok) paths).failed = 0
    then 0 else 1

/-- How the yt-dlp subprocess of download.py ends. -/
inductive SubprocessOutcome where
  | success
  | calledProcessError (returncode : Int)
  | fileNotFound
  deriving DecidableEq, Repr

/-- Return value of download_playlist (download.py lines 75-88). -/
def downloadPlaylistExit (o : SubprocessOutcome) : Nat :=
  match o with
  | .success => 0
  | .calledProcessError _ => 1
  | .fileNotFound => 1

/-- Exit code of download.py: main validates the range (lines 154-161)
and otherwise returns download_playlist's value, which sys.exit receives. -/
def downloadMainExit (startIndex endIndex : Int) (o : SubprocessOutcome) : Nat :=
  if startIndex < 1 then 1
  else if endIndex < startIndex then 1
  else downloadPlaylistExit o

/-- Classification of the generation API call of generate.py. -/
inductive GenOutcome where
  | ok
  | httpFail
  | noImage
  | timeout
  | netError
  | unexpected
  deriving DecidableEq, Repr

/-- Exit code of generate.py main: missing key exits 1 (get_api_key), an
unreadable requested reference image exits 1 (encode_image_to_base64),
every API failure branch exits 1 (generate_image), a failed save exits 1
(save_base64_image), and a completed run falls off main with exit 0. -/
def generateMainExit (apiKey : Option String) (refRequested refReadable : Bool)
    (gen : GenOutcome) (saveOk : Bool) : Nat :=
  match apiKey with
  | none => 1
  | some _ =>
    if refRequested && !refReadable then 1
    else
      match gen with
      | .ok => if saveOk then 0 else 1
      | _ => 1

/-- Exit code of fetch.py: main calls fetch_all and returns None, and
fetch_all catches KeyboardInterrupt and Exception itself, so the process
exits 0 whatever happened during the run. -/
def fetchMainExit (outcome : Resource → StepResult) (hasToken : Bool) : Nat :=
  let _ := fetchAllEvents outcome hasToken
  0

/-- The executed resource steps whose outcome was an error. -/
def failedSteps (outcome : Resource → StepResult) (hasToken : Bool) : List Resource :=
  (executedResources outcome hasToken).filter (fun r => decide (outcome r = .error))

/-- C4 counterexample: a run of the GitHub exporter in which the profile
fetch fails with a network error still exits with code 0, not 1, because
fetch_all swallows the exception and main never sets an exit status. -/
theorem C4_exit_code_counterexample :
    fetchMainExit (fun r => if r = Resource.profile then .error else .ok) true = 0
    ∧ failedSteps (fun r => if r = Resource.profile then .error else .ok) true
        = [Resource.profile] := by
  constructor
  · rfl
  · decide

lemma exit_if_eq_zero (X : Nat) : (if X = 0 then (0 : Nat) else 1) = 0 ↔ X = 0 := by
  split
  · simp_all
  · simp_all

/-- C4 as amended: the Imgur uploader, the playlist downloader, the image
generator and the OAuth token helper exit 0 exactly on full success and 1
on their failure paths (missing credentials, invalid arguments, failed
subprocess or API call, unreadable input, failed extraction, any failed
batch item), while the GitHub exporter always exits 0, even when fetches
fail. -/
theorem C4_exit_codes_amended :
    (∀ (fileExists : String → Bool) (extOf : String → String) (net : String → NetOutcome)
        (paths : List String),
      uploadMainExit none none none none fileExists extOf net paths = 1)
    ∧ (∀ (cid tok : Option String) (fileExists : String → Bool) (extOf : String → String)
        (net : String → NetOutcome) (paths : List String),
      (cid.isSome || tok.isSome) = true →
        (uploadMainExit cid tok none none fileExists extOf net paths = 0
          ↔ ∀ p ∈ paths, (uploadImageToImgur fileExists extOf net cid tok p).success = true))
    ∧ (∀ (s e : Int) (o : SubprocessOutcome), 1 ≤ s → s ≤ e →
        (downloadMainExit s e o = 0 ↔ o = .success))
    ∧ (∀ (s e : Int) (o : SubprocessOutcome), s < 1 ∨ e < s → downloadMainExit s e o = 1)
    ∧ (∀ (key : Option String) (refRequested refReadable : Bool) (gen : GenOutcome)
        (saveOk : Bool),
      generateMainExit key refRequested refReadable gen saveOk = 0
        ↔ key.isSome = true ∧ (refRequested = true → refReadable = true)
          ∧ gen = .ok ∧ saveOk = true)
    ∧ (∀ clientId redirectUrl saveAnswer : List Char,
        (getTokenMain clientId redirectUrl saveAnswer).exitCode = 0
          ↔ (trimChars clientId).isEmpty = false ∧ (trimChars redirectUrl).isEmpty = false
            ∧ findCapture "access_token=".toList (trimChars redirectUrl) ≠ none
            ∧ (∀ cap, findCapture "expires_in=".toList (trimChars redirectUrl) = some cap →
                pyIntOk cap = true))
    ∧ (∀ (outcome : Resource → StepResult) (hasToken : Bool),
        fetchMainExit outcome hasToken = 0) := by
  refine ⟨?_, ?_, ?_, ?_, ?_, ?_, ?_⟩
  · intro fileExists extOf net paths
    rfl
  · intro cid tok fileExists extOf net paths hcli
    have hsel : uploadAuthSelection cid tok none none = some (cid, tok) := by
      unfold uploadAuthSelection
      rw [if_pos hcli]
    unfold uploadMainExit
    rw [hsel]
    dsimp only
    have hfail : (uploadMultipleImages (uploadImageToImgur fileExists extOf net cid tok)
          paths).failed
        = (paths.map (uploadImageToImgur fileExists extOf net cid tok)).countP
            (fun r => !r.success) := by
      have h := (uploadMultipleImages_foldl (uploadImageToImgur fileExists extOf net cid tok)
        paths { total := paths.length, successful := 0, failed := 0, uploads := [] }).2.2.2
      simpa [uploadMultipleImages] using h
    rw [hfail, exit_if_eq_zero, List.countP_eq_zero]
    constructor
    · intro hall p hp
      have := hall _ (List.mem_map_of_mem _ hp)
      simpa using this
    · intro hall r hr
      obtain ⟨p, hp, rfl⟩ := List.mem_map.mp hr
      simp [hall p hp]
  · intro s e o hs hse
    unfold downloadMainExit
    rw [if_neg (by omega), if_neg (by omega)]
    cases o <;> simp [downloadPlaylistExit]
  · intro s e o h
    unfold downloadMainExit
    by_cases h1 : s < 1
    · rw [if_pos h1]
    · rw [if_neg h1, if_pos (by omega)]
  · intro key refRequested refReadable gen saveOk
    cases key with
    | none => simp [generateMainExit]
    | some k =>
      cases refRequested <;> cases refReadable <;> cases saveOk <;> cases gen <;>
        simp [generateMainExit]
  · intro c r s
    unfold getTokenMain
    by_cases h1 : (trimChars c).isEmpty
    · simp [h1]
    · by_cases h2 : (trimChars r).isEmpty
      · simp [h1, h2]
      · cases hf : findCapture "access_token=".toList (trimChars r) with
        | none => simp [h1, h2, hf]
        | some cap =>
          cases he : findCapture "expires_in=".toList (trimChars r) with
          | none =>
            by_cases h3 : (trimChars s).map Char.toLower = ['y'] <;>
              simp [h1, h2, hf, he, h3]
          | some ecap =>
            by_cases hp : pyIntOk ecap = true
            · by_cases h3 : (trimChars s).map Char.toLower = ['y'] <;>
                simp [h1, h2, hf, he, h3, hp]
            · simp [h1, h2, hf, he, hp]
  · intro outcome hasToken
    rfl

/-- Witness for C4 as amended, instantiating the hypothesis-bearing
conjuncts at concrete inputs; the last part exercises the token-helper
characterisation on a URL whose expires_in field is not numeric, where
int() raises and the helper exits 1, not 0. -/
theorem C4_exit_codes_amended_witness :
    (downloadMainExit 1 2 SubprocessOutcome.success = 0
      ↔ SubprocessOutcome.success = SubprocessOutcome.success)
    ∧ (uploadMainExit (some "cid") none none none (fun _ => true) (fun _ => ".png")
          (fun _ => NetOutcome.ok true) ["a.png"] = 0
        ↔ ∀ p ∈ ["a.png"], (uploadImageToImgur (fun _ => true) (fun _ => ".png")
            (fun _ => NetOutcome.ok true) (some "cid") none p).success = true)
    ∧ downloadMainExit 0 2 SubprocessOutcome.success = 1
    ∧ (getTokenMain "abc".toList
        "https://localhost/#access_token=tok&expires_in=oops".toList
        "n".toList).exitCode ≠ 0 :=
  ⟨C4_exit_codes_amended.2.2.1 1 2 SubprocessOutcome.success (by decide) (by decide),
   C4_exit_codes_amended.2.1 (some "cid") none (fun _ => true) (fun _ => ".png")
     (fun _ => NetOutcome.ok true) ["a.png"] (by decide),
   C4_exit_codes_amended.2.2.2.1 0 2 SubprocessOutcome.success (Or.inl (by decide)),
   fun h =>
     absurd ((C4_exit_codes_amended.2.2.2.2.2.1 "abc".toList
       "https://localhost/#access_token=tok&expires_in=oops".toList "n".toList).mp h)
       (by decide)⟩
